import Mathlib

/-!
Verification of the CHIP-8 interpreter in `chip8.py` (class `C8Computer` and
class `C8Screen`).  The Python source is shallowly embedded below: the
interpreter state becomes a structure of functions and scalars, each opcode
handler becomes a pure function on that state, and machine arithmetic is
expressed over `Nat`/`Int` with explicit masking and remainders mirroring
the Python expressions.
-/

/-- Pointwise update of a function, mirroring a Python array element assignment
`a[i] = v`. -/
def upd (f : Nat → Nat) (a v : Nat) : Nat → Nat :=
  fun x => if x = a then v else f x

/-- The two module-level configuration globals of `chip8.py`
(`INCREMENT_I_FX55_FX65` and `SHIFT_VY_8XY6_8XYE`).  These are the only
behavioral configuration options defined by the source. -/
structure C8Config where
  INCREMENT_I_FX55_FX65 : Bool
  SHIFT_VY_8XY6_8XYE : Bool

/-- State of `C8Computer` (plus the `vram` of its `C8Screen`).  `RAM` and `V`
are byte arrays (`array('B')`), embedded as functions; timestamps are wall
clock times in microseconds, `none` standing for Python `None`. -/
structure C8 where
  RAM : Nat → Nat
  V : Nat → Nat
  I : Nat
  delay_register : Nat
  delay_register_last_tick_time : Option Nat
  sound_register : Nat
  sound_register_last_tick_time : Option Nat
  PC : Nat
  stack : List Nat
  key_pressed : Option Nat
  blocking_on_fx0a : Bool
  fx0a_key_pressed : Option Nat
  fx0a_key_up : Option Nat
  vram : Nat → Nat

/-- A zeroed interpreter state used to build concrete test states. -/
def st0 : C8 where
  RAM := fun _ => 0
  V := fun _ => 0
  I := 0
  delay_register := 0
  delay_register_last_tick_time := none
  sound_register := 0
  sound_register_last_tick_time := none
  PC := 0x200
  stack := []
  key_pressed := none
  blocking_on_fx0a := false
  fx0a_key_pressed := none
  fx0a_key_up := none
  vram := fun _ => 0

/-- Python `(a - b) & 0xFF` on plain ints: masking a possibly negative int by
`0xFF` is its remainder modulo 256 (Python `&` acts on the two's complement
form, and Python `%` with a positive modulus is the Euclidean remainder,
matching `Int.emod`). -/
def sub8 (a b : Nat) : Nat := (((a : Int) - (b : Int)) % 256).toNat

/-- Handler `_8xy1` (OR Vx, Vy): `self.V[vx] = self.V[vx] | self.V[vy]`. -/
def op8xy1 (s : C8) (vx vy : Nat) : C8 :=
  { s with V := upd s.V vx (s.V vx ||| s.V vy) }

/-- Handler `_8xy2` (AND Vx, Vy): `self.V[vx] = self.V[vx] & self.V[vy]`. -/
def op8xy2 (s : C8) (vx vy : Nat) : C8 :=
  { s with V := upd s.V vx (s.V vx &&& s.V vy) }

/-- Handler `_8xy3` (XOR Vx, Vy): `self.V[vx] = self.V[vx] ^ self.V[vy]`. -/
def op8xy3 (s : C8) (vx vy : Nat) : C8 :=
  { s with V := upd s.V vx (s.V vx ^^^ s.V vy) }

/-- Handler `_8xy4` (ADD Vx, Vy): `sum = V[vx] + V[vy]; V[vx] = sum & 0xFF;
V[0xF] = 1 if sum > 255 else 0` — the data write precedes the flag write. -/
def op8xy4 (s : C8) (vx vy : Nat) : C8 :=
  let sum := s.V vx + s.V vy
  { s with V := upd (upd s.V vx (sum &&& 0xFF)) 0xF (if sum > 255 then 1 else 0) }

/-- Handler `_8xy5` (SUB Vx, Vy): `notborrow = 1 if V[vx] > V[vy] else 0;
V[vx] = (V[vx] - V[vy]) & 0xFF; V[0xF] = notborrow`. -/
def op8xy5 (s : C8) (vx vy : Nat) : C8 :=
  let notborrow := if s.V vx > s.V vy then 1 else 0
  { s with V := upd (upd s.V vx (sub8 (s.V vx) (s.V vy))) 0xF notborrow }

/-- Handler `_8xy7` (SUBN Vx, Vy): `notborrow = 1 if V[vy] > V[vx] else 0;
V[vx] = (V[vy] - V[vx]) & 0xFF; V[0xF] = notborrow`. -/
def op8xy7 (s : C8) (vx vy : Nat) : C8 :=
  let notborrow := if s.V vy > s.V vx then 1 else 0
  { s with V := upd (upd s.V vx (sub8 (s.V vy) (s.V vx))) 0xF notborrow }

/-- Handler `_8xy6` (SHR): optionally `V[vx] = V[vy]` under the
`SHIFT_VY_8XY6_8XYE` global, then `lsb = V[vx] & 0x1; V[vx] = V[vx] >> 1;
V[0xF] = lsb`. -/
def op8xy6 (cfg : C8Config) (s : C8) (vx vy : Nat) : C8 :=
  let V1 := if cfg.SHIFT_VY_8XY6_8XYE then upd s.V vx (s.V vy) else s.V
  let lsb := V1 vx &&& 0x1
  { s with V := upd (upd V1 vx (V1 vx >>> 1)) 0xF lsb }

/-- Handler `_8xyE` (SHL): optionally `V[vx] = V[vy]` under the
`SHIFT_VY_8XY6_8XYE` global, then `msb = V[vx] & 0x80;
V[vx] = (V[vx] << 1) & 0xFF; V[0xF] = msb` — note the flag receives the
masked bit `0x80` itself, not `1`. -/
def op8xyE (cfg : C8Config) (s : C8) (vx vy : Nat) : C8 :=
  let V1 := if cfg.SHIFT_VY_8XY6_8XYE then upd s.V vx (s.V vy) else s.V
  let msb := V1 vx &&& 0x80
  { s with V := upd (upd V1 vx ((V1 vx <<< 1) &&& 0xFF)) 0xF msb }

/-- The `oper == 0x1` branch of `cycle_old`: `V[reg1] = vx | vy; V[0xF] = 0`
(where `vx`, `vy` are the values read before any write). -/
def cycleOld8xy1 (s : C8) (vx vy : Nat) : C8 :=
  { s with V := upd (upd s.V vx (s.V vx ||| s.V vy)) 0xF 0 }

/-- The `oper == 0x2` branch of `cycle_old`: `V[reg1] = vx & vy; V[0xF] = 0`. -/
def cycleOld8xy2 (s : C8) (vx vy : Nat) : C8 :=
  { s with V := upd (upd s.V vx (s.V vx &&& s.V vy)) 0xF 0 }

/-- The `oper == 0x3` branch of `cycle_old`: `V[reg1] = vx ^ vy; V[0xF] = 0`. -/
def cycleOld8xy3 (s : C8) (vx vy : Nat) : C8 :=
  { s with V := upd (upd s.V vx (s.V vx ^^^ s.V vy)) 0xF 0 }

/-- The `oper == 0xE` branch of `cycle_old`: after the optional `vx = vy`
copy, `msb = vx & 0x80; V[reg1] = vx << 1 & 0xFF;
V[0xF] = 0x1 if msb else 0x0` — unlike `_8xyE`, this path converts the
masked bit to `1`. -/
def cycleOld8xyE (cfg : C8Config) (s : C8) (vx vy : Nat) : C8 :=
  let v := if cfg.SHIFT_VY_8XY6_8XYE then s.V vy else s.V vx
  let msb := v &&& 0x80
  { s with V := upd (upd s.V vx ((v <<< 1) &&& 0xFF)) 0xF (if msb ≠ 0 then 0x1 else 0x0) }

/-- Handler `_Fx1E`: `self.I += self.V[vx] & 0xFFF`.  By Python operator
precedence the mask applies to `self.V[vx]` (a byte, so the mask is a no-op)
and the sum written to `I` is never reduced modulo 4096. -/
def opFx1E (s : C8) (vx : Nat) : C8 :=
  { s with I := s.I + (s.V vx &&& 0xFFF) }

/-- The `oper == 0x1E` branch of `cycle_old`:
`self.I += self.V[reg]; self.I &= 0xFFF` — here the sum is masked. -/
def cycleOldFx1E (s : C8) (vx : Nat) : C8 :=
  { s with I := (s.I + s.V vx) &&& 0xFFF }

/-- Handler `_Fx29`: `assert (self.V[vx] <= 0xF); self.I = 5 * self.V[vx]`.
A failed assert raises before `I` is written; the `error` value carries the
state as it stands at the failure. -/
def opFx29 (s : C8) (vx : Nat) : Except C8 C8 :=
  if s.V vx ≤ 0xF then Except.ok { s with I := 5 * s.V vx } else Except.error s

/-- The `kk == 0x9E` branch of `_E_opcodes` (SKP Vx): `if key_pressed is not
None and key_pressed == V[vx]: PC += 2`. -/
def opEx9E (s : C8) (vx : Nat) : C8 :=
  match s.key_pressed with
  | some k => if k = s.V vx then { s with PC := s.PC + 2 } else s
  | none => s

/-- The `kk == 0xA1` branch of `_E_opcodes` (SKNP Vx): `if key_pressed is
None: PC += 2 elif key_pressed != V[vx]: PC += 2`. -/
def opExA1 (s : C8) (vx : Nat) : C8 :=
  match s.key_pressed with
  | some k => if k ≠ s.V vx then { s with PC := s.PC + 2 } else s
  | none => { s with PC := s.PC + 2 }

/-- Handler `_Fx0A` (wait for key press and release).  Returns the new state
and `increment_pc`.  First execution arms the wait; subsequent executions
block until `fx0a_key_up` holds a released key, which is then committed to
`V[vx]`. -/
def opFx0A (s : C8) (vx : Nat) : C8 × Bool :=
  if s.blocking_on_fx0a = false then
    ({ s with blocking_on_fx0a := true, fx0a_key_pressed := none, fx0a_key_up := none }, false)
  else
    match s.fx0a_key_up with
    | none => (s, false)
    | some u =>
      ({ s with V := upd s.V vx u, blocking_on_fx0a := false,
                fx0a_key_up := none, fx0a_key_pressed := none }, true)

/-- The `pygame.KEYDOWN` branch of `main` for a mapped key `k`:
`c8.key_pressed = k; if c8.blocking_on_fx0a: c8.fx0a_key_pressed = k`. -/
def onKeyDown (s : C8) (k : Nat) : C8 :=
  let s1 := { s with key_pressed := some k }
  if s1.blocking_on_fx0a then { s1 with fx0a_key_pressed := some k } else s1

/-- The `pygame.KEYUP` branch of `main` for a mapped key `k`:
`c8.key_pressed = None; if c8.blocking_on_fx0a: if c8.fx0a_key_pressed == k:
c8.fx0a_key_up = k; c8.fx0a_key_pressed = None`. -/
def onKeyUp (s : C8) (k : Nat) : C8 :=
  let s1 := { s with key_pressed := none }
  if s1.blocking_on_fx0a then
    if s1.fx0a_key_pressed = some k then
      { s1 with fx0a_key_up := some k, fx0a_key_pressed := none }
    else s1
  else s1

/-- The `.microseconds` field of a nonnegative Python `timedelta` whose total
length is `d` microseconds: the sub-second part only. -/
def microseconds (d : Nat) : Nat := d % 1000000

/-- One register's block of `decrement_sound_delay_registers`, for a timer
with current `value`, last-tick timestamp `last` and current wall time `cur`
(microseconds): `tickdiff = (cur - last).microseconds // 16666; if tickdiff >
0: value -= tickdiff; if value <= 0: value, last = 0, None (timer expired)
else: last = cur`.  Returns `(value, last, expired)`; `none` models the
`TypeError` Python would raise on `cur - None`. -/
def tickTimer (value : Nat) (last : Option Nat) (cur : Nat) : Option (Nat × Option Nat × Bool) :=
  if value > 0 then
    match last with
    | none => none
    | some t =>
      let tickdiff := microseconds (cur - t) / 16666
      if tickdiff > 0 then
        if value ≤ tickdiff then some (0, none, true)
        else some (value - tickdiff, some cur, false)
      else some (value, last, false)
  else some (value, last, false)

/-- `decrement_sound_delay_registers`, applied at wall time `cur`.  The `Bool`
result records whether `beep.stop()` was signalled (sound timer expired). -/
def decrement_sound_delay_registers (s : C8) (cur : Nat) : Option (C8 × Bool) :=
  match tickTimer s.delay_register s.delay_register_last_tick_time cur with
  | none => none
  | some (dv, dt, _) =>
    match tickTimer s.sound_register s.sound_register_last_tick_time cur with
    | none => none
    | some (sv, stt, stopped) =>
      some ({ s with delay_register := dv, delay_register_last_tick_time := dt,
                     sound_register := sv, sound_register_last_tick_time := stt }, stopped)

/-- Flip of a stored pixel by an incoming 1-bit of a sprite: the body of the
per-bit branch of `xor8px` (`if vram[cell] == 1: vram[cell] = 0 else:
vram[cell] = 1`). -/
def toggle (v : Nat) : Nat := if v = 1 then 0 else 1

/-- The `for i in range(numpx)` loop of `C8Screen.xor8px`: `cell` is the
running `vramcell`, `shift` the running bit index `i`, `fuel` the iterations
left, `col` the `collision` accumulator. -/
def xorRowLoop : (Nat → Nat) → Nat → Nat → Nat → Nat → Bool → (Nat → Nat) × Bool
  | vram, _, _, _, 0, col => (vram, col)
  | vram, cell, val, shift, fuel+1, col =>
    if (val <<< shift) &&& 0x80 ≠ 0 then
      (if vram cell = 1 then
        xorRowLoop (upd vram cell 0) (cell+1) val (shift+1) fuel true
      else
        xorRowLoop (upd vram cell 1) (cell+1) val (shift+1) fuel col)
    else
      xorRowLoop vram (cell+1) val (shift+1) fuel col

/-- `C8Screen.xor8px(x, y, val)`: `vramcell = y * xsize + x;
numpx = min(8, xsize - x); if y >= 32: return` (no change, falsy collision),
else run the per-bit loop and return the vram and the collision flag. -/
def xor8px (xsize : Nat) (vram : Nat → Nat) (x y val : Nat) : (Nat → Nat) × Bool :=
  let vramcell := y * xsize + x
  let numpx := min 8 (xsize - x)
  if 32 ≤ y then (vram, false)
  else xorRowLoop vram vramcell val 0 numpx false

/-- The `for i in range(n)` loop of `_Dxyn`: at each step one sprite byte is
read at `memloc` and composited at row `y`, and `collision` is forced to `1`
whenever `xor8px` returned a truthy value. -/
def drawLoop : (Nat → Nat) → Nat → Nat → (Nat → Nat) → Nat → Nat → Nat → (Nat → Nat) × Nat
  | vram, _, _, _, _, 0, col => (vram, col)
  | vram, x, y, ram, memloc, n+1, col =>
    let res := xor8px 64 vram x y (ram memloc)
    drawLoop res.1 x (y+1) ram (memloc+1) n (if res.2 then 1 else col)

/-- Handler `_Dxyn` (draw sprite): `x = V[vx] & 0x3F; y = V[vy] & 0x1F`, then
the row loop starting at `memloc = I` with `collision = 0`, and finally
`V[0xF] = collision`. -/
def opDxyn (s : C8) (vx vy n : Nat) : C8 :=
  let x := s.V vx &&& 0x3F
  let y := s.V vy &&& 0x1F
  let res := drawLoop s.vram x y s.RAM s.I n 0
  { s with vram := res.1, V := upd s.V 0xF res.2 }

/-- Whether composing one sprite byte `val` at anchor `(x, y)` on the default
64-wide screen touches cell `c` with a 1-bit: `c` lies in the clipped span
`[y*64 + x, y*64 + x + min 8 (64 - x))` and the corresponding bit of `val`
is set. -/
def inRow (x y val c : Nat) : Bool :=
  decide (y * 64 + x ≤ c) && decide (c < y * 64 + x + min 8 (64 - x)) &&
    decide ((val <<< (c - (y * 64 + x))) &&& 0x80 ≠ 0)

/-- Whether the `n`-row sprite read from `ram` at `memloc`, drawn at anchor
`(x, y)`, touches cell `c` with a 1-bit of a visible (not vertically
clipped) row. -/
def inSprite : Nat → Nat → (Nat → Nat) → Nat → Nat → Nat → Bool
  | _, _, _, _, 0, _ => false
  | x, y, ram, memloc, n+1, c =>
    (decide (y < 32) && inRow x y (ram memloc) c) || inSprite x (y+1) ram (memloc+1) n c

/- ----------------------------------------------------------------------
Concrete states used by witnesses and counterexamples.
---------------------------------------------------------------------- -/

/-- Delay timer 5 whose last tick was at time 0 (microseconds). -/
def s8c : C8 := { st0 with delay_register := 5, delay_register_last_tick_time := some 0 }

/-- Both timers running: delay 5 ticked at 0, sound 7 ticked at 10000 µs. -/
def s8w : C8 :=
  { st0 with delay_register := 5, delay_register_last_tick_time := some 0,
             sound_register := 7, sound_register_last_tick_time := some 10000 }

/-- State whose RAM holds the one-row sprite `0x80` at address 0 (with
`I = 0` and all registers, including the draw anchor registers, zero). -/
def sD6 : C8 := { st0 with RAM := fun a => if a = 0 then 0x80 else 0 }

/-- State with `V0 = V1 = 5` (equal operands for the subtract instructions). -/
def sX1 : C8 := { st0 with V := fun r => if r = 0 then 5 else if r = 1 then 5 else 0 }

/-- State with `V0 = 0x80` (high bit set, for the left-shift instruction). -/
def sX2 : C8 := { st0 with V := fun r => if r = 0 then 0x80 else 0 }

/-- State with `V0 = 3`, `V1 = 5` and `VF = 7` (nonzero flag register before a
logic instruction). -/
def sX3 : C8 :=
  { st0 with V := fun r => if r = 0 then 3 else if r = 1 then 5 else if r = 15 then 7 else 0 }

/-- State with `I = 0xFFF` and `V0 = 1` (index register at the top of RAM). -/
def sX4 : C8 := { st0 with I := 0xFFF, V := fun r => if r = 0 then 1 else 0 }

/-- State with `V0 = 200` and `V1 = 100` (overflowing add operands). -/
def sW5 : C8 := { st0 with V := fun r => if r = 0 then 200 else if r = 1 then 100 else 0 }

/-- State with `V0 = 0xA` (the digit of the spec's font-address scenario). -/
def sW9a : C8 := { st0 with V := fun r => if r = 0 then 0xA else 0 }

/-- State with `V0 = 0x10` (first value rejected by the font-address guard). -/
def sW9b : C8 := { st0 with V := fun r => if r = 0 then 0x10 else 0 }

/-- Blocking wait-for-key state currently tracking key `1`. -/
def sK1 : C8 := { st0 with blocking_on_fx0a := true, fx0a_key_pressed := some 1 }

/-- Blocking wait-for-key state with a recorded release of key `3`. -/
def sK2 : C8 := { st0 with blocking_on_fx0a := true, fx0a_key_up := some 3 }

/-- The `SHIFT_VY_8XY6_8XYE = False, INCREMENT_I_FX55_FX65 = False`
configuration (the module defaults). -/
def cfgFF : C8Config := ⟨false, false⟩

/- ----------------------------------------------------------------------
Helper lemmas.
---------------------------------------------------------------------- -/

/-- Masking a natural number by `0xFF` is reduction modulo 256. -/
theorem and255_eq_mod (x : Nat) : x &&& 255 = x % 256 := by
  simpa using Nat.and_pow_two_sub_one_eq_mod x 8

/-- The byte-wrapped difference, as an integer, is the difference modulo 256. -/
theorem sub8_int (a b : Nat) : (sub8 a b : Int) = ((a : Int) - (b : Int)) % 256 := by
  unfold sub8
  exact Int.toNat_of_nonneg (Int.emod_nonneg _ (by norm_num))

/- ----------------------------------------------------------------------
C1: subtract / reverse-subtract.
---------------------------------------------------------------------- -/

/-- C1 counterexample: with `V0 = V1 = 5` the minuend equals the subtrahend,
so the claim predicts `VF = 1` (no borrow on equality), but `_8xy5` uses a
strict comparison and sets `VF = 0`. -/
theorem C1_counterexample :
    sX1.V 0 ≥ sX1.V 1 ∧ (op8xy5 sX1 0 1).V 0xF = 0 ∧ (op8xy5 sX1 0 1).V 0xF ≠ 1 := by
  decide

/-- C1 (amended): for `8XY5` and `8XY7` the destination receives the
difference wrapped modulo 256 and `VF` is 1 iff the minuend is *strictly*
greater than the subtrahend (equality yields 0); the flag write follows the
data write, so `VF` ends up holding the flag even when the destination is
`VF` itself. -/
theorem C1_sub_borrow_strict (s : C8) (vx vy : Nat) :
    ((op8xy5 s vx vy).V 0xF = if s.V vx > s.V vy then 1 else 0) ∧
    (vx ≠ 0xF → ((op8xy5 s vx vy).V vx : Int) = ((s.V vx : Int) - (s.V vy : Int)) % 256) ∧
    (∀ r, r ≠ vx → r ≠ 0xF → (op8xy5 s vx vy).V r = s.V r) ∧
    ((op8xy7 s vx vy).V 0xF = if s.V vy > s.V vx then 1 else 0) ∧
    (vx ≠ 0xF → ((op8xy7 s vx vy).V vx : Int) = ((s.V vy : Int) - (s.V vx : Int)) % 256) ∧
    (∀ r, r ≠ vx → r ≠ 0xF → (op8xy7 s vx vy).V r = s.V r) := by
  refine ⟨?_, ?_, ?_, ?_, ?_, ?_⟩
  · simp [op8xy5, upd]
  · intro h; simp [op8xy5, upd, h, sub8_int]
  · intro r hr hf; simp [op8xy5, upd, hr, hf]
  · simp [op8xy7, upd]
  · intro h; simp [op8xy7, upd, h, sub8_int]
  · intro r hr hf; simp [op8xy7, upd, hr, hf]

/-- C1 witness: concrete instance of the amended subtract semantics at
`V0 = V1 = 5`: the data register receives `0` and the flag `0`, and register
`V2` is untouched. -/
theorem C1_witness :
    (op8xy5 sX1 0 1).V 0xF = 0 ∧ ((op8xy5 sX1 0 1).V 0 : Int) = 0 ∧
    (op8xy5 sX1 0 1).V 2 = sX1.V 2 ∧ (op8xy7 sX1 0 1).V 0xF = 0 := by
  have h := C1_sub_borrow_strict sX1 0 1
  refine ⟨h.1.trans (by decide), (h.2.1 (by decide)).trans (by decide),
    h.2.2.1 2 (by decide) (by decide), h.2.2.2.1.trans (by decide)⟩

/- ----------------------------------------------------------------------
C2: shift instructions.
---------------------------------------------------------------------- -/

/-- C2 failing input: with `V0 = 0x80`, handler `_8xyE` writes the masked
most-significant bit `0x80 = 128` into `VF` instead of the value `1`; the
legacy `cycle_old` path for the same opcode converts it to `1`, showing the
handler contradicts its sibling implementation.  The right-shift handler
`_8xy6` does produce a 0/1 flag. -/
theorem C2_shl_flag_not_boolean :
    (op8xyE cfgFF sX2 0 1).V 0xF = 128 ∧ (op8xyE cfgFF sX2 0 1).V 0xF ≠ 1 ∧
    (op8xyE cfgFF sX2 0 1).V 0 = 0 ∧
    (cycleOld8xyE cfgFF sX2 0 1).V 0xF = 1 ∧
    (op8xy6 cfgFF sX2 0 1).V 0xF = 0 := by
  decide

/- ----------------------------------------------------------------------
C3: bitwise logic instructions and the flag register.
---------------------------------------------------------------------- -/

/-- C3 counterexample: with `VF = 7` before the instruction, the handler
`_8xy1` used by `cycle` leaves `VF = 7` while the `cycle_old` path zeroes
it — under the one and only configuration the source defines (which contains
no logic-ops flag option), so no quirk option governs the zeroing. -/
theorem C3_counterexample :
    (op8xy1 sX3 0 1).V 0xF = 7 ∧ (op8xy1 sX3 0 1).V 0xF ≠ 0 ∧
    (cycleOld8xy1 sX3 0 1).V 0xF = 0 := by
  decide

/-- C3 (amended): `Vx` receives the bitwise combination in both code paths,
but no configuration option governs `VF`: the handlers used by `cycle`
(`_8xy1/_8xy2/_8xy3`) never touch `VF`, while the legacy `cycle_old` branch
always forces `VF` to 0. -/
theorem C3_logic_ops_vf (s : C8) (vx vy : Nat) :
    ((op8xy1 s vx vy).V vx = s.V vx ||| s.V vy) ∧
    (vx ≠ 0xF → (op8xy1 s vx vy).V 0xF = s.V 0xF) ∧
    ((op8xy2 s vx vy).V vx = s.V vx &&& s.V vy) ∧
    (vx ≠ 0xF → (op8xy2 s vx vy).V 0xF = s.V 0xF) ∧
    ((op8xy3 s vx vy).V vx = s.V vx ^^^ s.V vy) ∧
    (vx ≠ 0xF → (op8xy3 s vx vy).V 0xF = s.V 0xF) ∧
    ((cycleOld8xy1 s vx vy).V 0xF = 0) ∧
    (vx ≠ 0xF → (cycleOld8xy1 s vx vy).V vx = s.V vx ||| s.V vy) ∧
    ((cycleOld8xy2 s vx vy).V 0xF = 0) ∧
    (vx ≠ 0xF → (cycleOld8xy2 s vx vy).V vx = s.V vx &&& s.V vy) ∧
    ((cycleOld8xy3 s vx vy).V 0xF = 0) ∧
    (vx ≠ 0xF → (cycleOld8xy3 s vx vy).V vx = s.V vx ^^^ s.V vy) := by
  refine ⟨?_, ?_, ?_, ?_, ?_, ?_, ?_, ?_, ?_, ?_, ?_, ?_⟩
  · simp [op8xy1, upd]
  · intro h; simp [op8xy1, upd, Ne.symm h]
  · simp [op8xy2, upd]
  · intro h; simp [op8xy2, upd, Ne.symm h]
  · simp [op8xy3, upd]
  · intro h; simp [op8xy3, upd, Ne.symm h]
  · simp [cycleOld8xy1, upd]
  · intro h; simp [cycleOld8xy1, upd, h]
  · simp [cycleOld8xy2, upd]
  · intro h; simp [cycleOld8xy2, upd, h]
  · simp [cycleOld8xy3, upd]
  · intro h; simp [cycleOld8xy3, upd, h]

/-- C3 witness: concrete instance at `V0 = 3`, `V1 = 5`, `VF = 7`: the new
handler computes `3 ||| 5 = 7` and keeps `VF = 7`; the old path zeroes `VF`
but stores the same data value. -/
theorem C3_witness :
    (op8xy1 sX3 0 1).V 0 = 7 ∧ (op8xy1 sX3 0 1).V 0xF = 7 ∧
    (cycleOld8xy1 sX3 0 1).V 0xF = 0 ∧ (cycleOld8xy1 sX3 0 1).V 0 = 7 := by
  have h := C3_logic_ops_vf sX3 0 1
  refine ⟨h.1.trans (by decide), (h.2.1 (by decide)).trans (by decide),
    h.2.2.2.2.2.2.1, (h.2.2.2.2.2.2.2.1 (by decide)).trans (by decide)⟩

/- ----------------------------------------------------------------------
C4: add-to-index.
---------------------------------------------------------------------- -/

/-- C4 failing input: at `I = 0xFFF`, `V0 = 1`, handler `_Fx1E` leaves
`I = 0x1000` — by Python precedence `self.I += self.V[vx] & 0xFFF` masks only
the byte-valued operand (a no-op), never the sum, while the claim (and the
`cycle_old` branch, which masks the sum) give `I = 0`.  `V` is untouched. -/
theorem C4_add_index_unmasked :
    (opFx1E sX4 0).I = 4096 ∧ (opFx1E sX4 0).I ≠ (0xFFF + 1) % 4096 ∧
    (cycleOldFx1E sX4 0).I = 0 ∧ (opFx1E sX4 0).V = sX4.V := by
  refine ⟨by decide, by decide, by decide, rfl⟩

/- ----------------------------------------------------------------------
C5: add-register.
---------------------------------------------------------------------- -/

/-- C5: `8XY4` stores the sum wrapped modulo 256 in `Vx`, sets `VF = 1` iff
the unwrapped sum exceeds 255 (else 0), writes the flag after the data (so a
destination of `VF` ends up holding the carry), and touches no other
register. -/
theorem C5_add_register (s : C8) (vx vy : Nat) :
    ((op8xy4 s vx vy).V 0xF = if s.V vx + s.V vy > 255 then 1 else 0) ∧
    (vx ≠ 0xF → (op8xy4 s vx vy).V vx = (s.V vx + s.V vy) % 256) ∧
    (∀ r, r ≠ vx → r ≠ 0xF → (op8xy4 s vx vy).V r = s.V r) := by
  refine ⟨?_, ?_, ?_⟩
  · simp [op8xy4, upd]
  · intro h; simp [op8xy4, upd, h, and255_eq_mod]
  · intro r hr hf; simp [op8xy4, upd, hr, hf]

/-- C5 witness: `200 + 100 = 300` wraps to `44` with carry `1`, and `V2` is
untouched. -/
theorem C5_witness :
    (op8xy4 sW5 0 1).V 0xF = 1 ∧ (op8xy4 sW5 0 1).V 0 = 44 ∧
    (op8xy4 sW5 0 1).V 2 = sW5.V 2 := by
  have h := C5_add_register sW5 0 1
  exact ⟨h.1.trans (by decide), (h.2.1 (by decide)).trans (by decide),
    h.2.2 2 (by decide) (by decide)⟩

/- ----------------------------------------------------------------------
C7: wait-for-key state machine.
---------------------------------------------------------------------- -/

/-- C7 counterexample: in the blocking state tracking key `1`, a key-down of
key `2` replaces the tracked key — the event is not ignored. -/
theorem C7_counterexample :
    sK1.blocking_on_fx0a = true ∧ sK1.fx0a_key_pressed = some 1 ∧
    (onKeyDown sK1 2).fx0a_key_pressed = some 2 ∧
    (onKeyDown sK1 2).fx0a_key_pressed ≠ some 1 := by
  decide

/-- C7 (amended): while the wait-for-key instruction is blocking, any mapped
key-down replaces the tracked key with the new key; a key-up of a
non-tracked key changes nothing in the wait sub-state; a key-up of the
currently tracked key records the release; and the instruction commits the
released key into `Vx` and allows the PC advance exactly when a release has
been recorded. -/
theorem C7_keydown_replaces_tracked (s : C8) (j vx u : Nat) :
    (s.blocking_on_fx0a = true → (onKeyDown s j).fx0a_key_pressed = some j) ∧
    (s.blocking_on_fx0a = true → s.fx0a_key_pressed = some u → u ≠ j →
      (onKeyUp s j).fx0a_key_up = s.fx0a_key_up ∧
      (onKeyUp s j).fx0a_key_pressed = some u) ∧
    (s.blocking_on_fx0a = true → s.fx0a_key_pressed = some j →
      (onKeyUp s j).fx0a_key_up = some j ∧ (onKeyUp s j).fx0a_key_pressed = none) ∧
    (s.blocking_on_fx0a = true → s.fx0a_key_up = some u →
      opFx0A s vx = ({ s with V := upd s.V vx u, blocking_on_fx0a := false,
                              fx0a_key_up := none, fx0a_key_pressed := none }, true)) ∧
    (s.blocking_on_fx0a = true → s.fx0a_key_up = none → opFx0A s vx = (s, false)) := by
  refine ⟨?_, ?_, ?_, ?_, ?_⟩
  · intro hb; simp [onKeyDown, hb]
  · intro hb hp hne; simp [onKeyUp, hb, hp, hne]
  · intro hb hp; simp [onKeyUp, hb, hp]
  · intro hb hu; simp [opFx0A, hb, hu]
  · intro hb hu; simp [opFx0A, hb, hu]

/-- C7 witness: concrete runs of the amended transitions from the blocking
states `sK1` (tracking key 1) and `sK2` (release of key 3 recorded). -/
theorem C7_witness :
    (onKeyDown sK1 2).fx0a_key_pressed = some 2 ∧
    (onKeyUp sK1 2).fx0a_key_up = none ∧
    (onKeyUp sK1 1).fx0a_key_up = some 1 ∧
    (opFx0A sK2 0 = ({ sK2 with
        V := upd sK2.V 0 3, blocking_on_fx0a := false,
        fx0a_key_up := none, fx0a_key_pressed := none }, true)) ∧
    opFx0A sK1 0 = (sK1, false) := by
  have h1 := C7_keydown_replaces_tracked sK1 2 0 1
  have h2 := C7_keydown_replaces_tracked sK1 1 0 1
  have h3 := C7_keydown_replaces_tracked sK2 0 0 3
  exact ⟨h1.1 rfl, ((h1.2.1 rfl rfl (by decide)).1).trans rfl, (h2.2.2.1 rfl rfl).1,
    h3.2.2.2.1 rfl rfl, h1.2.2.2.2 rfl rfl⟩

/- ----------------------------------------------------------------------
C8: timer decay timestamps.
---------------------------------------------------------------------- -/

/-- C8 counterexample: at wall time 20000 µs one whole 1/60 s tick is
consumed from the delay timer (leaving 4 > 0), yet the new timestamp is the
current time 20000, not the previous timestamp advanced by one tick (16666
or 16667 µs): the fractional remainder is dropped, not preserved. -/
theorem C8_counterexample :
    (decrement_sound_delay_registers s8c 20000).map (fun p => p.1.delay_register) = some 4 ∧
    (decrement_sound_delay_registers s8c 20000).map
      (fun p => p.1.delay_register_last_tick_time) = some (some 20000) ∧
    some (some (20000 : Nat)) ≠ some (some (0 + 1 * 16666)) ∧
    some (some (20000 : Nat)) ≠ some (some (0 + 1 * 16667)) := by
  decide

/-- C8 (amended): when a decay step consumes `td ≥ 1` whole ticks from a
timer but leaves its value positive, the timer's last-tick timestamp is set
to the *current* wall-clock time (for both the delay and the sound timer),
so the sub-tick remainder of the elapsed time is dropped. -/
theorem C8_timestamp_set_to_now (s : C8) (cur t u td te : Nat)
    (hdt : s.delay_register_last_tick_time = some t) (hdc : t ≤ cur)
    (hd0 : 0 < s.delay_register)
    (hst : s.sound_register_last_tick_time = some u) (hsc : u ≤ cur)
    (hs0 : 0 < s.sound_register)
    (htd : td = microseconds (cur - t) / 16666) (htd0 : 0 < td)
    (htdlt : td < s.delay_register)
    (hte : te = microseconds (cur - u) / 16666) (hte0 : 0 < te)
    (htelt : te < s.sound_register) :
    (decrement_sound_delay_registers s cur).map
      (fun p => (p.1.delay_register, p.1.delay_register_last_tick_time,
                 p.1.sound_register, p.1.sound_register_last_tick_time, p.2)) =
    some (s.delay_register - td, some cur, s.sound_register - te, some cur, false) := by
  subst htd hte
  simp only [decrement_sound_delay_registers, tickTimer, hdt, hst, if_pos hd0, if_pos hs0,
    if_pos htd0, if_pos hte0, if_neg (by omega : ¬ s.delay_register ≤ microseconds (cur - t) / 16666),
    if_neg (by omega : ¬ s.sound_register ≤ microseconds (cur - u) / 16666)]
  rfl

/-- C8 witness: at `cur = 50000` µs, the delay timer (last tick 0) consumes
3 ticks leaving 2, the sound timer (last tick 10000) consumes 2 leaving 5,
and both timestamps become 50000. -/
theorem C8_witness :
    (decrement_sound_delay_registers s8w 50000).map
      (fun p => (p.1.delay_register, p.1.delay_register_last_tick_time,
                 p.1.sound_register, p.1.sound_register_last_tick_time, p.2)) =
    some (2, some 50000, 5, some 50000, false) := by
  have h := C8_timestamp_set_to_now s8w 50000 0 10000 3 2 rfl (by decide) (by decide) rfl
    (by decide) (by decide) (by decide) (by decide) (by decide) (by decide) (by decide) (by decide)
  exact h.trans (by decide)

/- ----------------------------------------------------------------------
C9: font address.
---------------------------------------------------------------------- -/

/-- C9: `FX29` sets `I` to five times the register's low nibble whenever the
register value is at most `0xF`, and fails (assertion, the *invalid-digit*
error) exactly when the value exceeds `0xF`, in which case the state — in
particular `I` — is left unchanged. -/
theorem C9_font_address (s : C8) (vx : Nat) :
    (s.V vx ≤ 0xF → opFx29 s vx = Except.ok { s with I := 5 * (s.V vx % 16) }) ∧
    (0xF < s.V vx → opFx29 s vx = Except.error s) := by
  constructor
  · intro h
    have h16 : s.V vx % 16 = s.V vx := Nat.mod_eq_of_lt (by omega)
    simp only [opFx29, if_pos h, h16]
  · intro h
    simp only [opFx29, if_neg (by omega : ¬ s.V vx ≤ 0xF)]

/-- C9 witness: register value `0xA` gives `I = 50`; register value `0x10`
fails, returning the unchanged state. -/
theorem C9_witness :
    opFx29 sW9a 0 = Except.ok { sW9a with I := 50 } ∧
    opFx29 sW9b 0 = Except.error sW9b := by
  exact ⟨(C9_font_address sW9a 0).1 (by decide), (C9_font_address sW9b 0).2 (by decide)⟩

/- ----------------------------------------------------------------------
C10: key-skip complementarity.
---------------------------------------------------------------------- -/

/-- C10: in every state, exactly one of `EX9E` (skip if key pressed) and
`EXA1` (skip if key not pressed) performs the extra `PC` advance of 2: their
skip conditions are exact logical complements. -/
theorem C10_key_skip_complement (s : C8) (vx : Nat) :
    ((opEx9E s vx).PC = s.PC + 2 ∧ (opExA1 s vx).PC = s.PC) ∨
    ((opEx9E s vx).PC = s.PC ∧ (opExA1 s vx).PC = s.PC + 2) := by
  cases h : s.key_pressed with
  | none => right; constructor <;> simp [opEx9E, opExA1, h]
  | some k =>
    by_cases hk : k = s.V vx
    · left; constructor <;> simp [opEx9E, opExA1, h, hk]
    · right; constructor <;> simp [opEx9E, opExA1, h, hk]


/- ----------------------------------------------------------------------
C6: sprite drawing is a pointwise XOR — lemmas about the composite loop.
---------------------------------------------------------------------- -/

/-- Cells outside the scanned span are untouched by the per-bit loop of
`xor8px`. -/
theorem xorRowLoop_frame (fuel : Nat) :
    ∀ (vram : Nat → Nat) (cell val shift : Nat) (col : Bool) (c : Nat),
      (c < cell ∨ cell + fuel ≤ c) →
      (xorRowLoop vram cell val shift fuel col).1 c = vram c := by
  induction fuel with
  | zero => intro vram cell val shift col c _; rfl
  | succ n ih =>
    intro vram cell val shift col c hc
    have hne : c ≠ cell := by omega
    have hc2 : c < cell + 1 ∨ cell + 1 + n ≤ c := by omega
    simp only [xorRowLoop]
    split_ifs with hbit h1
    · rw [ih _ _ _ _ _ _ hc2]; simp [upd, hne]
    · rw [ih _ _ _ _ _ _ hc2]; simp [upd, hne]
    · exact ih _ _ _ _ _ _ hc2

/-- Pointwise effect of the per-bit loop on the scanned span: the cell at
offset `j` is toggled exactly when bit `shift + j` of the sprite byte is
set. -/
theorem xorRowLoop_get (fuel : Nat) :
    ∀ (vram : Nat → Nat) (cell val shift : Nat) (col : Bool) (j : Nat), j < fuel →
      (xorRowLoop vram cell val shift fuel col).1 (cell + j) =
        if (val <<< (shift + j)) &&& 0x80 ≠ 0 then toggle (vram (cell + j))
        else vram (cell + j) := by
  induction fuel with
  | zero => intro _ _ _ _ _ j hj; exact absurd hj (Nat.not_lt_zero j)
  | succ n ih =>
    intro vram cell val shift col j hj
    simp only [xorRowLoop]
    cases j with
    | zero =>
      simp only [Nat.add_zero]
      have hlt : cell < cell + 1 ∨ cell + 1 + n ≤ cell := by omega
      split_ifs with hbit h1
      · rw [xorRowLoop_frame n _ _ _ _ _ _ hlt]; simp [upd, toggle, h1]
      · rw [xorRowLoop_frame n _ _ _ _ _ _ hlt]; simp [upd, toggle, h1]
      · rw [xorRowLoop_frame n _ _ _ _ _ _ hlt]
    | succ k =>
      have harr : cell + (k + 1) = cell + 1 + k := by omega
      have hsh : shift + (k + 1) = shift + 1 + k := by omega
      have hk : k < n := by omega
      have hcc : cell + 1 + k ≠ cell := by omega
      by_cases hbit : (val <<< shift) &&& 0x80 ≠ 0
      · rw [if_pos hbit]
        by_cases h1 : vram cell = 1
        · rw [if_pos h1, harr, hsh, ih (upd vram cell 0) (cell + 1) val (shift + 1) true k hk]
          simp [upd, hcc]
        · rw [if_neg h1, harr, hsh, ih (upd vram cell 1) (cell + 1) val (shift + 1) col k hk]
          simp [upd, hcc]
      · rw [if_neg hbit, harr, hsh, ih vram (cell + 1) val (shift + 1) col k hk]

/-- Collision result of the per-bit loop: truthy iff the accumulator was
already truthy or some set bit of the span lands on a lit cell. -/
theorem xorRowLoop_col (fuel : Nat) :
    ∀ (vram : Nat → Nat) (cell val shift : Nat) (col : Bool),
      ((xorRowLoop vram cell val shift fuel col).2 = true ↔
        col = true ∨ ∃ j, j < fuel ∧ (val <<< (shift + j)) &&& 0x80 ≠ 0 ∧ vram (cell + j) = 1) := by
  induction fuel with
  | zero =>
    intro vram cell val shift col
    simp [xorRowLoop]
  | succ n ih =>
    intro vram cell val shift col
    simp only [xorRowLoop]
    by_cases hbit : (val <<< shift) &&& 0x80 ≠ 0
    · rw [if_pos hbit]
      by_cases h1 : vram cell = 1
      · rw [if_pos h1, ih]
        constructor
        · intro _
          refine Or.inr ⟨0, by omega, by simpa using hbit, by simpa using h1⟩
        · intro _; exact Or.inl rfl
      · rw [if_neg h1, ih]
        constructor
        · rintro (h | ⟨j, hj, hb, hv⟩)
          · exact Or.inl h
          · have hne : cell + 1 + j ≠ cell := by omega
            simp only [upd, if_neg hne] at hv
            refine Or.inr ⟨j + 1, by omega, ?_, ?_⟩
            · rw [(by omega : shift + (j + 1) = shift + 1 + j)]; exact hb
            · rw [(by omega : cell + (j + 1) = cell + 1 + j)]; exact hv
        · rintro (h | ⟨j, hj, hb, hv⟩)
          · exact Or.inl h
          · cases j with
            | zero => exact absurd (by simpa using hv) h1
            | succ k =>
              have hne : cell + 1 + k ≠ cell := by omega
              refine Or.inr ⟨k, by omega, ?_, ?_⟩
              · rw [(by omega : shift + 1 + k = shift + (k + 1))]; exact hb
              · simp only [upd, if_neg hne]
                rw [(by omega : cell + 1 + k = cell + (k + 1))]; exact hv
    · rw [if_neg hbit, ih]
      constructor
      · rintro (h | ⟨j, hj, hb, hv⟩)
        · exact Or.inl h
        · refine Or.inr ⟨j + 1, by omega, ?_, ?_⟩
          · rw [(by omega : shift + (j + 1) = shift + 1 + j)]; exact hb
          · rw [(by omega : cell + (j + 1) = cell + 1 + j)]; exact hv
      · rintro (h | ⟨j, hj, hb, hv⟩)
        · exact Or.inl h
        · cases j with
          | zero => exact absurd (by simpa using hb) hbit
          | succ k =>
            refine Or.inr ⟨k, by omega, ?_, ?_⟩
            · rw [(by omega : shift + 1 + k = shift + (k + 1))]; exact hb
            · rw [(by omega : cell + 1 + k = cell + (k + 1))]; exact hv

/-- A vertically clipped row (`y ≥ 32`) contributes no change and a falsy
collision. -/
theorem xor8px_out (xsize : Nat) (vram : Nat → Nat) (x y val : Nat) (hy : 32 ≤ y) :
    xor8px xsize vram x y val = (vram, false) := by
  simp [xor8px, hy]

/-- Pointwise effect of one visible sprite row on the default-width screen. -/
theorem xor8px_get (vram : Nat → Nat) (x y val c : Nat) (hy : y < 32) :
    (xor8px 64 vram x y val).1 c =
      if inRow x y val c = true then toggle (vram c) else vram c := by
  have hny : ¬ 32 ≤ y := by omega
  simp only [xor8px, if_neg hny]
  by_cases hin : y * 64 + x ≤ c ∧ c < y * 64 + x + min 8 (64 - x)
  · obtain ⟨h1, h2⟩ := hin
    obtain ⟨j, rfl⟩ : ∃ j, c = y * 64 + x + j := ⟨c - (y * 64 + x), by omega⟩
    have hjlt : j < min 8 (64 - x) := by omega
    rw [xorRowLoop_get (min 8 (64 - x)) vram (y * 64 + x) val 0 false j hjlt]
    have hinr : inRow x y val (y * 64 + x + j) = decide ((val <<< j) &&& 0x80 ≠ 0) := by
      simp only [inRow, (by omega : y * 64 + x + j - (y * 64 + x) = j),
        decide_eq_true (by omega : y * 64 + x ≤ y * 64 + x + j),
        decide_eq_true (by omega : y * 64 + x + j < y * 64 + x + min 8 (64 - x)),
        Bool.true_and]
    rw [hinr]
    simp only [Nat.zero_add, decide_eq_true_eq]
  · rw [xorRowLoop_frame (min 8 (64 - x)) vram (y * 64 + x) val 0 false c (by omega)]
    have hnr : ¬ (inRow x y val c = true) := by
      simp only [inRow, Bool.and_eq_true, decide_eq_true_eq]
      rintro ⟨⟨ha, hb⟩, _⟩
      exact hin ⟨ha, hb⟩
    rw [if_neg hnr]

/-- Collision of one visible sprite row: truthy iff a set, unclipped bit of
the row lands on a lit cell. -/
theorem xor8px_col (vram : Nat → Nat) (x y val : Nat) (hy : y < 32) :
    ((xor8px 64 vram x y val).2 = true ↔ ∃ c, inRow x y val c = true ∧ vram c = 1) := by
  have hny : ¬ 32 ≤ y := by omega
  simp only [xor8px, if_neg hny]
  rw [xorRowLoop_col]
  constructor
  · rintro (h | ⟨j, hj, hb, hv⟩)
    · exact absurd h (by simp)
    · refine ⟨y * 64 + x + j, ?_, hv⟩
      simp only [inRow, (by omega : y * 64 + x + j - (y * 64 + x) = j),
        decide_eq_true (by omega : y * 64 + x ≤ y * 64 + x + j),
        decide_eq_true (by omega : y * 64 + x + j < y * 64 + x + min 8 (64 - x)),
        decide_eq_true (by simpa using hb), Bool.and_self]
  · rintro ⟨c, hc, hv⟩
    simp only [inRow, Bool.and_eq_true, decide_eq_true_eq] at hc
    obtain ⟨⟨h1, h2⟩, h3⟩ := hc
    refine Or.inr ⟨c - (y * 64 + x), by omega, ?_, ?_⟩
    · simp only [Nat.zero_add]; exact h3
    · rw [(by omega : y * 64 + x + (c - (y * 64 + x)) = c)]; exact hv

/-- A cell touched by a visible row determines that row: rows occupy disjoint
64-cell strips of the flat vram. -/
theorem inRow_div (x y val c : Nat) (h : inRow x y val c = true) : c / 64 = y := by
  simp only [inRow, Bool.and_eq_true, decide_eq_true_eq] at h
  obtain ⟨⟨h1, h2⟩, _⟩ := h
  omega

/-- Any cell touched by a sprite starting at row `y` lies in strip `y` or
below. -/
theorem inSprite_lb (n : Nat) :
    ∀ (x y : Nat) (ram : Nat → Nat) (memloc c : Nat),
      inSprite x y ram memloc n c = true → y ≤ c / 64 := by
  induction n with
  | zero => intro x y ram memloc c h; simp [inSprite] at h
  | succ m ih =>
    intro x y ram memloc c h
    simp only [inSprite, Bool.or_eq_true, Bool.and_eq_true, decide_eq_true_eq] at h
    rcases h with ⟨hy, hr⟩ | h
    · have := inRow_div x y (ram memloc) c hr; omega
    · have := ih x (y + 1) ram (memloc + 1) c h; omega

/-- The first row of a sprite and the rest of its rows touch disjoint
cells. -/
theorem inRow_inSprite_disjoint (x y val c : Nat) (ram : Nat → Nat) (memloc n : Nat)
    (h1 : inRow x y val c = true) (h2 : inSprite x (y + 1) ram memloc n c = true) : False := by
  have ha := inRow_div x y val c h1
  have hb := inSprite_lb n x (y + 1) ram memloc c h2
  omega

/-- Pointwise effect of the full draw loop of `_Dxyn`: each cell touched by a
visible sprite bit is toggled, every other cell is untouched. -/
theorem drawLoop_get (n : Nat) :
    ∀ (vram : Nat → Nat) (x y : Nat) (ram : Nat → Nat) (memloc col c : Nat),
      (drawLoop vram x y ram memloc n col).1 c =
        if inSprite x y ram memloc n c = true then toggle (vram c) else vram c := by
  induction n with
  | zero => intro vram x y ram memloc col c; simp [drawLoop, inSprite]
  | succ m ih =>
    intro vram x y ram memloc col c
    simp only [drawLoop]
    rw [ih]
    by_cases hy : 32 ≤ y
    · rw [xor8px_out 64 vram x y (ram memloc) hy]
      have hd : decide (y < 32) = false := by simp; omega
      simp only [inSprite, hd, Bool.false_and, Bool.false_or]
    · have hylt : y < 32 := by omega
      rw [xor8px_get vram x y (ram memloc) c hylt]
      by_cases hrest : inSprite x (y + 1) ram (memloc + 1) m c = true
      · have hnr : ¬ (inRow x y (ram memloc) c = true) := fun hr =>
          inRow_inSprite_disjoint x y (ram memloc) c ram (memloc + 1) m hr hrest
        rw [if_pos hrest, if_neg hnr]
        have hall : inSprite x y ram memloc (m + 1) c = true := by
          simp only [inSprite, Bool.or_eq_true]; exact Or.inr hrest
        rw [if_pos hall]
      · have hrf : inSprite x (y + 1) ram (memloc + 1) m c = false :=
          Bool.eq_false_iff.mpr hrest
        rw [if_neg hrest]
        have hd : decide (y < 32) = true := decide_eq_true hylt
        simp only [inSprite, hd, Bool.true_and, hrf, Bool.or_false]

/-- Collision flag of the full draw loop: `1` iff the accumulator was `1` or
some visible sprite bit lands on a lit cell of the *initial* buffer (earlier
rows cannot light the cells a later row scans, because rows are disjoint). -/
theorem drawLoop_col (n : Nat) :
    ∀ (vram : Nat → Nat) (x y : Nat) (ram : Nat → Nat) (memloc col : Nat),
      ((drawLoop vram x y ram memloc n col).2 = 1 ↔
        col = 1 ∨ ∃ c, inSprite x y ram memloc n c = true ∧ vram c = 1) := by
  induction n with
  | zero => intro vram x y ram memloc col; simp [drawLoop, inSprite]
  | succ m ih =>
    intro vram x y ram memloc col
    simp only [drawLoop]
    rw [ih]
    by_cases hy : 32 ≤ y
    · rw [xor8px_out 64 vram x y (ram memloc) hy]
      have hd : decide (y < 32) = false := by simp; omega
      simp only [inSprite, hd, Bool.false_and, Bool.false_or]
      have hacc : (if ((vram, false) : (Nat → Nat) × Bool).2 = true then 1 else col) = col := by
        simp
      rw [hacc]
    · have hylt : y < 32 := by omega
      have hd : decide (y < 32) = true := decide_eq_true hylt
      constructor
      · rintro (hcol | ⟨c, hc, hv⟩)
        · by_cases hx2 : (xor8px 64 vram x y (ram memloc)).2 = true
          · obtain ⟨c, hcr, hcv⟩ := (xor8px_col vram x y (ram memloc) hylt).mp hx2
            refine Or.inr ⟨c, ?_, hcv⟩
            simp only [inSprite, Bool.or_eq_true, Bool.and_eq_true]
            exact Or.inl ⟨hd, hcr⟩
          · rw [if_neg hx2] at hcol; exact Or.inl hcol
        · have hnr : ¬ (inRow x y (ram memloc) c = true) := fun hr =>
            inRow_inSprite_disjoint x y (ram memloc) c ram (memloc + 1) m hr hc
          rw [xor8px_get vram x y (ram memloc) c hylt, if_neg hnr] at hv
          refine Or.inr ⟨c, ?_, hv⟩
          simp only [inSprite, Bool.or_eq_true]
          exact Or.inr hc
      · rintro (hcol | ⟨c, hc, hv⟩)
        · left
          by_cases hx2 : (xor8px 64 vram x y (ram memloc)).2 = true
          · rw [if_pos hx2]
          · rw [if_neg hx2]; exact hcol
        · simp only [inSprite, Bool.or_eq_true, Bool.and_eq_true] at hc
          rcases hc with ⟨_, hrow⟩ | hrest
          · have hx2 : (xor8px 64 vram x y (ram memloc)).2 = true :=
              (xor8px_col vram x y (ram memloc) hylt).mpr ⟨c, hrow, hv⟩
            left; rw [if_pos hx2]
          · right
            refine ⟨c, hrest, ?_⟩
            rw [xor8px_get vram x y (ram memloc) c hylt,
              if_neg (fun hr => inRow_inSprite_disjoint x y (ram memloc) c ram (memloc + 1) m hr hrest)]
            exact hv

/-- Applying the draw loop twice with the same arguments restores every cell
of a well-formed (0/1-valued) buffer. -/
theorem draw_twice_vram (vram : Nat → Nat) (x y : Nat) (ram : Nat → Nat) (memloc n : Nat)
    (hinv : ∀ c, vram c = 0 ∨ vram c = 1) (c : Nat) :
    (drawLoop (drawLoop vram x y ram memloc n 0).1 x y ram memloc n 0).1 c = vram c := by
  rw [drawLoop_get, drawLoop_get]
  by_cases h : inSprite x y ram memloc n c = true
  · rw [if_pos h, if_pos h]
    rcases hinv c with h0 | h0 <;> rw [h0] <;> rfl
  · rw [if_neg h, if_neg h]

/-- The second identical draw collides exactly when the first draw turned
some cell on. -/
theorem draw_twice_col (vram : Nat → Nat) (x y : Nat) (ram : Nat → Nat) (memloc n : Nat)
    (hinv : ∀ c, vram c = 0 ∨ vram c = 1) :
    ((drawLoop (drawLoop vram x y ram memloc n 0).1 x y ram memloc n 0).2 = 1 ↔
      ∃ c, vram c = 0 ∧ (drawLoop vram x y ram memloc n 0).1 c = 1) := by
  rw [drawLoop_col]
  constructor
  · rintro (h | ⟨c, hc, hv⟩)
    · exact absurd h (by omega)
    · refine ⟨c, ?_, hv⟩
      rw [drawLoop_get, if_pos hc] at hv
      rcases hinv c with h0 | h0
      · exact h0
      · rw [h0] at hv; exact absurd hv (by decide)
  · rintro ⟨c, h0, hv⟩
    right
    refine ⟨c, ?_, hv⟩
    by_cases h : inSprite x y ram memloc n c = true
    · exact h
    · exfalso
      rw [drawLoop_get, if_neg h, h0] at hv
      omega

/-- The flag register written by `_Dxyn` is the accumulated collision of its
draw loop. -/
theorem opDxyn_V15 (s : C8) (vx vy n : Nat) :
    (opDxyn s vx vy n).V 0xF =
      (drawLoop s.vram (s.V vx &&& 0x3F) (s.V vy &&& 0x1F) s.RAM s.I n 0).2 := by
  simp [opDxyn, upd]

/-- The buffer written by `_Dxyn` is the one produced by its draw loop. -/
theorem opDxyn_vram (s : C8) (vx vy n : Nat) :
    (opDxyn s vx vy n).vram =
      (drawLoop s.vram (s.V vx &&& 0x3F) (s.V vy &&& 0x1F) s.RAM s.I n 0).1 := rfl

/-- C6: for every well-formed display buffer, sprite and anchor (with anchor
registers other than `VF`, so the second draw reads the same anchor),
executing the draw-sprite instruction twice with identical operands restores
the display buffer to its prior state, and the second draw's flag register
is 1 exactly when the first draw turned at least one visible pixel on. -/
theorem C6_draw_twice (s : C8) (vx vy n : Nat)
    (hinv : ∀ c, s.vram c = 0 ∨ s.vram c = 1) (hvx : vx ≠ 0xF) (hvy : vy ≠ 0xF) :
    (∀ c, (opDxyn (opDxyn s vx vy n) vx vy n).vram c = s.vram c) ∧
    ((opDxyn (opDxyn s vx vy n) vx vy n).V 0xF = 1 ↔
      ∃ c, s.vram c = 0 ∧ (opDxyn s vx vy n).vram c = 1) := by
  have hV1 : (opDxyn s vx vy n).V vx = s.V vx := by simp [opDxyn, upd, hvx]
  have hV2 : (opDxyn s vx vy n).V vy = s.V vy := by simp [opDxyn, upd, hvy]
  have hRAM : (opDxyn s vx vy n).RAM = s.RAM := rfl
  have hI : (opDxyn s vx vy n).I = s.I := rfl
  constructor
  · intro c
    rw [opDxyn_vram (opDxyn s vx vy n) vx vy n, hV1, hV2, hRAM, hI,
      opDxyn_vram s vx vy n]
    exact draw_twice_vram s.vram (s.V vx &&& 0x3F) (s.V vy &&& 0x1F) s.RAM s.I n hinv c
  · rw [opDxyn_V15 (opDxyn s vx vy n) vx vy n, hV1, hV2, hRAM, hI,
      opDxyn_vram s vx vy n]
    exact draw_twice_col s.vram (s.V vx &&& 0x3F) (s.V vy &&& 0x1F) s.RAM s.I n hinv

/-- C6 witness: drawing the one-row sprite `0x80` at the origin twice on an
all-dark screen restores cell 0 and reports a collision on the second
draw. -/
theorem C6_witness :
    (opDxyn (opDxyn sD6 0 1 1) 0 1 1).vram 0 = sD6.vram 0 ∧
    (opDxyn (opDxyn sD6 0 1 1) 0 1 1).V 0xF = 1 := by
  have h := C6_draw_twice sD6 0 1 1 (fun c => Or.inl rfl) (by decide) (by decide)
  exact ⟨h.1 0, h.2.mpr ⟨0, rfl, by decide⟩⟩
